import Mathlib

/-!
Verification development for the bookstore catalog lifecycle manager
(`backend/controllers/bookController.js`: book handlers and author handlers).

The controllers are embedded as pure state-transition functions over a
`State` holding the five document collections plus the blob store.  The
asynchronous Express handlers are sequentialized in program order; a
`res.status(...).json(...)` or `next(error)` outcome is modelled by a
`Resp` value returned together with the post-state (database writes that
were awaited before an error persist in the post-state, matching the
absence of any transaction).
-/

namespace BookStore

/-- JavaScript numbers as they flow through the pricing arithmetic: an
exact value (modelled as a rational, since the code only adds, subtracts,
multiplies and divides by 100) or `NaN`, which arithmetic on `undefined`
produces and which propagates through every operation. -/
inductive JsNum where
  | num (q : ℚ)
  | nan
deriving DecidableEq

/-- JavaScript subtraction: `NaN` propagates. -/
def JsNum.sub : JsNum → JsNum → JsNum
  | .num a, .num b => .num (a - b)
  | _, _ => .nan

/-- JavaScript multiplication: `NaN` propagates. -/
def JsNum.mul : JsNum → JsNum → JsNum
  | .num a, .num b => .num (a * b)
  | _, _ => .nan

/-- JavaScript division as used by the controllers.  `NaN` propagates.
Division by zero would give `Infinity` in JavaScript, but every division
in the source divides by the literal 100, so that case is unreachable;
we map it to `nan` for totality. -/
def JsNum.div : JsNum → JsNum → JsNum
  | .num a, .num b => if b = 0 then .nan else .num (a / b)
  | _, _ => .nan

/-- A possibly-`undefined` request field, as a JavaScript number:
`undefined` enters arithmetic as `NaN`. -/
def jsOfOpt : Option ℚ → JsNum
  | none => .nan
  | some q => .num q

/-- JavaScript `x || y` applied to a numeric field (`req.body.discountPercentage
|| book.discountPercentage` in `updateBookById`): `undefined` and `0` are
falsy, so both select the fallback. -/
def jsOrQ : Option ℚ → ℚ → ℚ
  | none, y => y
  | some q, y => if q = 0 then y else q

/-- A stored asset reference.  The source persists a signed URL string whose
last path segment before the query string is the sanitized file name; every
delete path recovers that segment with `split("/").pop().split("?")[0].trim()`
and prepends a hard-coded namespace folder.  We model the reference by the
two components that survive this round trip: the folder the blob was
uploaded under and its sanitized file name. -/
structure Url where
  folder : String
  name : String
deriving DecidableEq

/-- The file-name recovery chain `url.split("/").pop().split("?")[0].trim()`
applied to a signed URL: it yields the sanitized file name. -/
def fileNameOfUrl (u : Url) : String := u.name

/-- An uploaded multipart file as the controllers see it. -/
structure FileU where
  originalname : String
deriving DecidableEq

/-- Filename sanitization `originalname.replace(/\s+/g, "_")`: every
maximal run of whitespace collapses to a single underscore.  The flag
records whether the previous character belonged to a whitespace run. -/
def sanitizeAux : Bool → List Char → List Char
  | _, [] => []
  | prevWs, c :: rest =>
    if c.isWhitespace then
      (if prevWs then [] else ['_']) ++ sanitizeAux true rest
    else c :: sanitizeAux false rest

/-- Filename sanitization on strings. -/
def sanitize (s : String) : String := String.mk (sanitizeAux false s.data)

/-- A persisted Book document (`bookSchema`).  The numeric `discountedPrice`
is kept as a `JsNum` because `createBook` can compute it from an undefined
discount; the other numeric fields are always exact. -/
structure BookRec where
  id : Nat
  title : String
  description : String
  price : ℚ
  discountPercentage : ℚ
  originalPrice : ℚ
  discountedPrice : JsNum
  category : String
  author : String
  sourcePath : Url
  coverImage : Url
  samplePdf : Url
  createdAt : Nat
deriving DecidableEq

/-- A persisted Author document: `books` is the ordered list of
`{bookId}` back-references. -/
structure AuthorRec where
  id : Nat
  name : String
  image : Option Url
  books : List Nat
deriving DecidableEq

/-- A persisted Category document with its list of book-id references. -/
structure CategoryRec where
  id : Nat
  title : String
  books : List Nat
deriving DecidableEq

/-- A Cart document: `items` line items, each carrying a `bookId`. -/
structure CartRec where
  id : Nat
  items : List Nat
deriving DecidableEq

/-- A Favorites document: `books` line items, each carrying a `bookId`. -/
structure FavoritesRec where
  id : Nat
  books : List Nat
deriving DecidableEq

/-- An Order document: owned by `userId`, with `books` line items each
carrying a `bookId`. -/
structure OrderRec where
  id : Nat
  userId : Nat
  books : List Nat
deriving DecidableEq

/-- The persisted world: the five document collections plus the Author
collection, the blob store (the set of `folder/name` keys currently
present, kept duplicate-free), and a fresh-id counter standing in for
Mongo object-id generation (also used as the creation timestamp). -/
structure State where
  books : List BookRec
  authors : List AuthorRec
  categories : List CategoryRec
  carts : List CartRec
  favorites : List FavoritesRec
  orders : List OrderRec
  blobs : List String
  nextId : Nat
deriving DecidableEq

/-- An HTTP outcome: a JSON success body with its status, or an error
status with its message (a `res.status(..).json({error})` or a thrown
error passed to `next`, which the error middleware outside this module
surfaces; per the error-handling design, errors outside the 4xx taxonomy
surface as 500-class internal errors). -/
inductive Resp (α : Type) where
  | ok (status : Nat) (body : α)
  | err (status : Nat) (msg : String)
deriving DecidableEq

/-- Storage key of a Book's full-text blob (`books/` namespace). -/
def bookKey (b : BookRec) : String := "books/" ++ fileNameOfUrl b.sourcePath

/-- Storage key of a Book's cover blob (`covers/` namespace). -/
def coverKey (b : BookRec) : String := "covers/" ++ fileNameOfUrl b.coverImage

/-- Storage key of a Book's sample blob (`samples/` namespace). -/
def sampleKey (b : BookRec) : String := "samples/" ++ fileNameOfUrl b.samplePdf

/-- Write a blob: the store keeps one object per key, a same-key upload
silently overwrites. -/
def putBlob (blobs : List String) (key : String) : List String :=
  if key ∈ blobs then blobs else key :: blobs

/-- Delete a blob by key: deleting an absent key rejects (firebase
`file.delete()` with no `ignoreNotFound`), modelled as a
`StorageDeleteError`. -/
def deleteBlobE (s : State) (key : String) : Except String State :=
  if key ∈ s.blobs then .ok { s with blobs := s.blobs.erase key }
  else .error "StorageDeleteError: No such object"

/-- The shared upload helper `uploadFileToFirebase(file, folder)`: writes
the blob under the sanitized name in the folder and returns its signed
URL. -/
def uploadFileToFirebase (s : State) (f : FileU) (folder : String) : State × Url :=
  let nm := sanitize f.originalname
  ({ s with blobs := putBlob s.blobs (folder ++ "/" ++ nm) }, ⟨folder, nm⟩)

/-- The projection of a Book document produced by `book.toObject()`,
possibly with the privileged `sourcePath` field stripped by rest/spread
destructuring (absence modelled by `none`). -/
structure BookView where
  id : Nat
  title : String
  description : String
  price : ℚ
  discountPercentage : ℚ
  originalPrice : ℚ
  discountedPrice : JsNum
  category : String
  author : String
  sourcePath : Option Url
  coverImage : Url
  samplePdf : Url
  createdAt : Nat
deriving DecidableEq

/-- The full `book.toObject()` representation, all fields present. -/
def BookRec.toObject (b : BookRec) : BookView :=
  { id := b.id, title := b.title, description := b.description, price := b.price
    discountPercentage := b.discountPercentage, originalPrice := b.originalPrice
    discountedPrice := b.discountedPrice, category := b.category, author := b.author
    sourcePath := some b.sourcePath, coverImage := b.coverImage
    samplePdf := b.samplePdf, createdAt := b.createdAt }

/-- The destructuring `const { sourcePath, ...rest } = book.toObject()`:
drop only the privileged source field. -/
def BookView.withoutSource (v : BookView) : BookView := { v with sourcePath := none }

/-- Mongo ascending comparison on the numeric `discountedPrice` key:
`NaN` sorts before every number (BSON orders NaN below all doubles). -/
def jsLeB : JsNum → JsNum → Bool
  | .nan, _ => true
  | .num _, .nan => false
  | .num a, .num b => decide (a ≤ b)

/-- Mongo range predicate `{$gte: m}` on a numeric field: `NaN` matches no
range query. -/
def jsGeBound (x : JsNum) (m : ℚ) : Bool :=
  match x with
  | .num a => decide (m ≤ a)
  | .nan => false

/-- Mongo range predicate `{$lte: m}` on a numeric field. -/
def jsLeBound (x : JsNum) (m : ℚ) : Bool :=
  match x with
  | .num a => decide (a ≤ m)
  | .nan => false

/-- Case-insensitive substring match, modelling the `$regex`/`$options "i"`
title filter. -/
def containsCI (hay pat : String) : Bool :=
  decide (pat.toLower.data <:+: hay.toLower.data)

/-- The `listBooks` query parameters with their defaults
(`sortBy = "default"`, `page = 1`, `limit = 12`); absent optional filters
are `none`. -/
structure BooksQuery where
  author : Option String := none
  category : Option String := none
  minPrice : Option ℚ := none
  maxPrice : Option ℚ := none
  search : Option String := none
  sortBy : String := "default"
  page : Nat := 1
  limit : Nat := 12
deriving DecidableEq

/-- The filter document built by `getBooks` from the optional query
parameters, before the `on-sale` extension. -/
def matchesBase (q : BooksQuery) (b : BookRec) : Bool :=
  (match q.author with | none => true | some a => b.author == a) &&
  (match q.category with | none => true | some c => b.category == c) &&
  (match q.minPrice with | none => true | some m => jsGeBound b.discountedPrice m) &&
  (match q.maxPrice with | none => true | some m => jsLeBound b.discountedPrice m) &&
  (match q.search with | none => true | some t => containsCI b.title t)

/-- The complete filter: `sortBy = "on-sale"` additionally requires
`discountPercentage > 0` (`filter.discountPercentage = {$gt: 0}`). -/
def matchesQuery (q : BooksQuery) (b : BookRec) : Bool :=
  matchesBase q b &&
    (if q.sortBy == "on-sale" then decide (0 < b.discountPercentage) else true)

/-- Ascending order on the derived price key, as the store compares it. -/
def priceAsc (a b : BookRec) : Prop := jsLeB a.discountedPrice b.discountedPrice = true

instance : DecidableRel priceAsc := fun _ _ => instDecidableEqBool _ true

/-- Descending order on the derived price key. -/
def priceDesc (a b : BookRec) : Prop := priceAsc b a

instance : DecidableRel priceDesc := fun _ _ => instDecidableEqBool _ true

/-- Ascending order on the creation timestamp. -/
def createdAsc (a b : BookRec) : Prop := a.createdAt ≤ b.createdAt

instance : DecidableRel createdAsc := fun a b => Nat.decLe a.createdAt b.createdAt

/-- Descending order on the creation timestamp. -/
def createdDesc (a b : BookRec) : Prop := createdAsc b a

instance : DecidableRel createdDesc := fun a b => Nat.decLe b.createdAt a.createdAt

instance : IsTotal BookRec priceAsc :=
  ⟨fun a b => by
    unfold priceAsc
    cases a.discountedPrice <;> cases b.discountedPrice <;> simp [jsLeB] <;>
      exact le_total _ _⟩

instance : IsTrans BookRec priceAsc :=
  ⟨fun a b c h1 h2 => by
    unfold priceAsc at h1 h2 ⊢
    generalize a.discountedPrice = x at h1 ⊢
    generalize b.discountedPrice = y at h1 h2
    generalize c.discountedPrice = z at h2 ⊢
    cases x <;> cases y <;> cases z <;> simp_all [jsLeB]
    exact le_trans h1 h2⟩

instance : IsTotal BookRec priceDesc :=
  ⟨fun a b => (total_of priceAsc a b).symm⟩

instance : IsTrans BookRec priceDesc :=
  ⟨fun _ _ _ h1 h2 => trans_of priceAsc h2 h1⟩

/-- The sort stage chosen by the `sortBy` switch; `default` (and any
unknown value) applies no sort, leaving the store's natural order.  The
store's sorting algorithm is opaque; it is modelled by insertion sort on
the selected key. -/
def sortBooks (sortBy : String) (l : List BookRec) : List BookRec :=
  match sortBy with
  | "oldest" => List.insertionSort createdAsc l
  | "newest" => List.insertionSort createdDesc l
  | "on-sale" => List.insertionSort priceAsc l
  | "price-low-to-high" => List.insertionSort priceAsc l
  | "price-high-to-low" => List.insertionSort priceDesc l
  | _ => l

/-- The matched-and-sorted book list of a `listBooks` call, before
pagination and redaction. -/
def matchedBooks (s : State) (q : BooksQuery) : List BookRec :=
  sortBooks q.sortBy (s.books.filter (matchesQuery q))

/-- The `listBooks` response body. -/
structure BooksPage where
  items : List BookView
  totalPages : Nat
  currentPage : Nat
deriving DecidableEq

/-- The `getBooks` handler: count the matches, compute
`totalPages = ceil(total/limit)` and `skip = (page-1)*limit`, fetch the
sorted page, and strip `sourcePath` from every returned document. -/
def getBooks (s : State) (q : BooksQuery) : BooksPage :=
  let total := (s.books.filter (matchesQuery q)).length
  let totalPages := (total + q.limit - 1) / q.limit
  let skip := (q.page - 1) * q.limit
  let pageItems := ((matchedBooks s q).drop skip).take q.limit
  { items := pageItems.map (fun b => b.toObject.withoutSource)
    totalPages := totalPages
    currentPage := q.page }

/-- The purchase scan of `getBookById`: `Order.find({userId})`, then the
nested loops over each order's line items looking for this book id,
short-circuiting on the first match. -/
def hasOrderedBook (s : State) (uid bid : Nat) : Bool :=
  (s.orders.filter (fun o => o.userId == uid)).any (fun o => o.books.any (fun x => x == bid))

/-- The `getBookById` handler: 404 when the id has no document; otherwise
return the full representation only to a requester who has an Order
containing this book id, and the source-stripped representation to anyone
else (including anonymous requests). -/
def getBookById (s : State) (id : Nat) (user : Option Nat) : Resp BookView :=
  match s.books.find? (fun b => b.id == id) with
  | none => .err 404 "Book not found"
  | some book =>
    match user with
    | none => .ok 200 book.toObject.withoutSource
    | some uid =>
      if hasOrderedBook s uid id then .ok 200 book.toObject
      else .ok 200 book.toObject.withoutSource

/-- The `getAllBooks` handler: every document, unredacted. -/
def getAllBooks (s : State) : Resp (List BookRec) := .ok 200 s.books

/-- The `getAllAuthors` handler. -/
def getAllAuthors (s : State) : Resp (List AuthorRec) := .ok 200 s.authors

/-- An Author document after `populate("books.bookId")`: each
back-reference resolved against the Book collection (missing targets
resolve to null). -/
structure PopAuthor where
  id : Nat
  name : String
  image : Option Url
  books : List (Option BookRec)
deriving DecidableEq

/-- The `getAuthorById` handler: look the id up, populate the
back-references, and serialize the result — with no not-found check, so
an absent id serializes as a 200 response whose body is null (`none`). -/
def getAuthorById (s : State) (id : Nat) : Resp (Option PopAuthor) :=
  match s.authors.find? (fun a => a.id == id) with
  | none => .ok 200 none
  | some a =>
    .ok 200 (some { id := a.id, name := a.name, image := a.image
                    books := a.books.map (fun bid => s.books.find? (fun b => b.id == bid)) })

/-- The `req.files` map of a multipart request: each field is absent
entirely (multer adds no key) or a list of uploaded files. -/
structure FilesU where
  file : Option (List FileU) := none
  cover : Option (List FileU) := none
  sample : Option (List FileU) := none
deriving DecidableEq

/-- JavaScript indexing `req.files[slot][0]`: indexing an absent field
throws a TypeError (caught by the handler's try/catch and passed to
`next`, surfacing as a 500-class internal error); an empty list yields
`undefined`. -/
def jsIndex0 : Option (List FileU) → Except String (Option FileU)
  | none => .error "TypeError: Cannot read properties of undefined"
  | some l => .ok l.head?

/-- A `createBook` request: the text fields of the multipart body (the
numeric ones already coerced, an absent discount staying `undefined`)
plus the three file slots. -/
structure CreateBookReq where
  title : String
  description : String
  price : ℚ
  category : String
  authorName : String
  discountPercentage : Option ℚ := none
  files : FilesU
deriving DecidableEq

/-- Push a book id onto a Category's reference list
(`Category.findByIdAndUpdate(id, {$push: {books: bid}})`). -/
def pushCategoryBook (s : State) (cid bid : Nat) : State :=
  { s with categories := s.categories.map (fun c =>
      if c.id == cid then { c with books := c.books ++ [bid] } else c) }

/-- Push a `{bookId}` entry onto an Author's back-reference list
(`Author.findByIdAndUpdate(id, {$push: {books: {bookId: bid}}})`). -/
def pushAuthorBook (s : State) (aid bid : Nat) : State :=
  { s with authors := s.authors.map (fun a =>
      if a.id == aid then { a with books := a.books ++ [bid] } else a) }

/-- The success path of `createBook` after validation and lookups: upload
the three blobs, write the record (its stored discount defaulting via
`discountPercentage || 0`, its derived price the one computed earlier
from the raw request), and push the new id onto the Category's and the
Author's reference lists. -/
def createBookCore (s : State) (r : CreateBookReq)
    (bookFile coverFile sampleFile : FileU)
    (authorDoc : AuthorRec) (categoryDoc : CategoryRec)
    (originalPrice : ℚ) (discountedPrice : JsNum) : BookRec × State :=
  let (s1, bookUrl) := uploadFileToFirebase s bookFile "books"
  let (s2, coverUrl) := uploadFileToFirebase s1 coverFile "covers"
  let (s3, sampleUrl) := uploadFileToFirebase s2 sampleFile "samples"
  let newBook : BookRec :=
    { id := s3.nextId, title := r.title, description := r.description
      price := originalPrice
      discountPercentage := r.discountPercentage.getD 0
      originalPrice := originalPrice
      discountedPrice := discountedPrice
      category := r.category, author := authorDoc.name
      sourcePath := bookUrl, coverImage := coverUrl, samplePdf := sampleUrl
      createdAt := s3.nextId }
  let s4 := { s3 with books := s3.books ++ [newBook], nextId := s3.nextId + 1 }
  let s5 := pushCategoryBook s4 categoryDoc.id newBook.id
  let s6 := pushAuthorBook s5 authorDoc.id newBook.id
  (newBook, s6)

/-- The `createBook` handler, sequentialized in program order: the derived
price is computed from the raw request values (an absent discount enters
the formula as `undefined`, i.e. `NaN`), the three file slots are
dereferenced (throwing on an absent field) and checked, the Author and
Category are looked up, and only then does the success path upload and
write. -/
def createBook (s : State) (r : CreateBookReq) : Resp BookRec × State :=
  let originalPrice := r.price
  let discountedPrice :=
    JsNum.sub (.num r.price)
      (JsNum.mul (.num r.price) (JsNum.div (jsOfOpt r.discountPercentage) (.num 100)))
  match jsIndex0 r.files.file with
  | .error e => (.err 500 e, s)
  | .ok bookFile? =>
  match jsIndex0 r.files.cover with
  | .error e => (.err 500 e, s)
  | .ok coverFile? =>
  match jsIndex0 r.files.sample with
  | .error e => (.err 500 e, s)
  | .ok sampleFile? =>
  match bookFile?, coverFile?, sampleFile? with
  | some bookFile, some coverFile, some sampleFile =>
    match s.authors.find? (fun a => a.name == r.authorName) with
    | none => (.err 404 "Author not found", s)
    | some authorDoc =>
    match s.categories.find? (fun c => c.title == r.category) with
    | none => (.err 404 "Category not found", s)
    | some categoryDoc =>
      let (newBook, s6) := createBookCore s r bookFile coverFile sampleFile
        authorDoc categoryDoc originalPrice discountedPrice
      (.ok 201 newBook, s6)
  | _, _, _ => (.err 400 "All files (book, cover, sample) must be provided", s)

/-- The text fields an `updateBook` request may carry (absent fields are
simply not merged by `Object.assign`). -/
structure UpdateBookBody where
  title : Option String := none
  description : Option String := none
  price : Option ℚ := none
  discountPercentage : Option ℚ := none
  authorName : Option String := none
  category : Option String := none
deriving DecidableEq

/-- An `updateBook` request: body fields plus the optional file slots. -/
structure UpdateBookReq where
  body : UpdateBookBody
  files : Option FilesU := none
deriving DecidableEq

/-- The asset phase of `updateBookById`: for every slot present in the
request, delete the old blob (recovered from the stored URL) and upload
the replacement, returning the new URLs.  The code starts the deletions
together and awaits them before the uploads; we sequentialize them in
push order, a failed deletion aborting with the pre-phase state. -/
def updateBookFiles (s : State) (book : BookRec) (files : FilesU) :
    Except String (State × Option Url × Option Url × Option Url) :=
  match (match files.file with
         | none => Except.ok s
         | some _ => deleteBlobE s ("books/" ++ fileNameOfUrl book.sourcePath)) with
  | .error e => .error e
  | .ok s1 =>
  match (match files.cover with
         | none => Except.ok s1
         | some _ => deleteBlobE s1 ("covers/" ++ fileNameOfUrl book.coverImage)) with
  | .error e => .error e
  | .ok s2 =>
  match (match files.sample with
         | none => Except.ok s2
         | some _ => deleteBlobE s2 ("samples/" ++ fileNameOfUrl book.samplePdf)) with
  | .error e => .error e
  | .ok s3 =>
  match (match files.file with
         | none => Except.ok (s3, none)
         | some l =>
           match l.head? with
           | none => Except.error "TypeError: Cannot read properties of undefined"
           | some f =>
             let (s4, url) := uploadFileToFirebase s3 f "books"
             Except.ok (s4, some url)) with
  | .error e => .error e
  | .ok (s4, newSource) =>
  match (match files.cover with
         | none => Except.ok (s4, none)
         | some l =>
           match l.head? with
           | none => Except.error "TypeError: Cannot read properties of undefined"
           | some f =>
             let (s5, url) := uploadFileToFirebase s4 f "covers"
             Except.ok (s5, some url)) with
  | .error e => .error e
  | .ok (s5, newCover) =>
  match (match files.sample with
         | none => Except.ok (s5, none)
         | some l =>
           match l.head? with
           | none => Except.error "TypeError: Cannot read properties of undefined"
           | some f =>
             let (s6, url) := uploadFileToFirebase s5 f "samples"
             Except.ok (s6, some url)) with
  | .error e => .error e
  | .ok (s6, newSample) => .ok (s6, newSource, newCover, newSample)

/-- The `Object.assign(book, {...req.body, originalPrice, discountedPrice})`
merge: every body field present overwrites the document field of the same
name (`author` having been resolved from `authorName`), the fresh slot
URLs overwrite their fields, and the recomputed prices are set last. -/
def mergeBook (book : BookRec) (body : UpdateBookBody) (authorField : Option String)
    (newSource newCover newSample : Option Url)
    (originalPrice discountedPrice : ℚ) : BookRec :=
  { book with
    title := body.title.getD book.title
    description := body.description.getD book.description
    price := body.price.getD book.price
    discountPercentage := body.discountPercentage.getD book.discountPercentage
    category := body.category.getD book.category
    author := authorField.getD book.author
    sourcePath := newSource.getD book.sourcePath
    coverImage := newCover.getD book.coverImage
    samplePdf := newSample.getD book.samplePdf
    originalPrice := originalPrice
    discountedPrice := .num discountedPrice }

/-- The `updateBookById` handler: find the book, resolve a supplied
`authorName` (404 if unknown), recompute the derived price — the list
price falling back to the record only when absent (`!== undefined`), but
the discount falling back through JavaScript `||`, which also discards a
supplied 0 — run the asset phase, and persist the merged document. -/
def updateBookById (s : State) (id : Nat) (r : UpdateBookReq) : Resp BookRec × State :=
  match s.books.find? (fun b => b.id == id) with
  | none => (.err 404 "Book not found", s)
  | some book =>
    match ((match r.body.authorName with
           | none => Except.ok (none : Option String)
           | some nm =>
             match s.authors.find? (fun a => a.name == nm) with
             | none => Except.error "Author not found"
             | some a => Except.ok (some a.name)) : Except String (Option String)) with
    | .error e => (.err 404 e, s)
    | .ok authorField =>
      let originalPrice := r.body.price.getD book.price
      let discountedPrice :=
        originalPrice - originalPrice * jsOrQ r.body.discountPercentage book.discountPercentage / 100
      match (match r.files with
             | none => Except.ok (s, none, none, none)
             | some files => updateBookFiles s book files) with
      | .error e => (.err 500 ("Failed to update book: " ++ e), s)
      | .ok (s1, newSource, newCover, newSample) =>
        let merged := mergeBook book r.body authorField newSource newCover newSample
          originalPrice discountedPrice
        let s2 := { s1 with books := s1.books.map (fun b => if b.id == id then merged else b) }
        (.ok 200 merged, s2)

/-- The Category step of the `deleteBookById` pull phase: find the
Category by the book's stored title (skip when absent) and filter the
book's id out of its list (`category.save()` persisting the change). -/
def pullCategoryRef (s : State) (book : BookRec) : State :=
  match s.categories.find? (fun c => c.title == book.category) with
  | none => s
  | some cat =>
    { s with categories := s.categories.map (fun c =>
        if c.id == cat.id then { c with books := c.books.filter (fun x => x ≠ book.id) } else c) }

/-- The Author step of the pull phase: find the Author by the book's
stored name (skip when absent) and filter the `{bookId}` entry out of its
back-reference list. -/
def pullAuthorRef (s : State) (book : BookRec) : State :=
  match s.authors.find? (fun a => a.name == book.author) with
  | none => s
  | some au =>
    { s with authors := s.authors.map (fun a =>
        if a.id == au.id then { a with books := a.books.filter (fun x => x ≠ book.id) } else a) }

/-- The `updateMany`/`$pull` step of the pull phase: drop every line item
carrying the book's id from all Cart, Favorites and Order documents. -/
def pullLineItems (s : State) (book : BookRec) : State :=
  let s3 : State := { s with carts := s.carts.map (fun c =>
      { c with items := c.items.filter (fun x => x ≠ book.id) }) }
  let s4 : State := { s3 with favorites := s3.favorites.map (fun f =>
      { f with books := f.books.filter (fun x => x ≠ book.id) }) }
  { s4 with orders := s4.orders.map (fun o =>
      { o with books := o.books.filter (fun x => x ≠ book.id) }) }

/-- The reference-pull phase of `deleteBookById`, in program order:
Category list, Author back-references, then the system-wide line-item
pulls. -/
def pullBookRefs (s : State) (book : BookRec) : State :=
  pullLineItems (pullAuthorRef (pullCategoryRef s book) book) book

/-- The blob phase of `deleteBookById` and of each `deleteAuthor`
iteration: delete the source, cover and sample blobs in that order,
stopping at the first storage error. -/
def deleteBookBlobs (s : State) (book : BookRec) : Except String State :=
  match deleteBlobE s (bookKey book) with
  | .error e => .error e
  | .ok s1 =>
  match deleteBlobE s1 (coverKey book) with
  | .error e => .error e
  | .ok s2 => deleteBlobE s2 (sampleKey book)

/-- Deletion of the document with this id (`findByIdAndDelete`; ids are
unique primary keys, so at most one document matches). -/
def removeBookDoc (books : List BookRec) (id : Nat) : List BookRec :=
  books.filter (fun b => b.id ≠ id)

/-- The `deleteBookById` handler: 404 when absent; otherwise pull every
cross-reference, delete the three blobs (a storage failure surfacing as a
500 wrapped error, with the already-awaited reference pulls kept), and
finally delete the Book record. -/
def deleteBookById (s : State) (id : Nat) : Resp String × State :=
  match s.books.find? (fun b => b.id == id) with
  | none => (.err 404 "Book not found", s)
  | some book =>
    let s1 := pullBookRefs s book
    match deleteBookBlobs s1 book with
    | .error e => (.err 500 ("Failed to delete book: " ++ e), s1)
    | .ok s2 => (.ok 200 "Book and related data deleted",
        { s2 with books := removeBookDoc s2.books book.id })

/-- A `createAuthor` request: the name field (absent or empty counts as
missing via the falsy check) and the optional image file slot. -/
structure CreateAuthorReq where
  name : Option String := none
  file : Option (List FileU) := none
deriving DecidableEq

/-- The `createAuthor` handler: reject a missing name with 400, otherwise
upload the optional image and persist the new Author with an empty
back-reference list. -/
def createAuthor (s : State) (r : CreateAuthorReq) : Resp AuthorRec × State :=
  let image := r.file.bind List.head?
  match r.name with
  | none => (.err 400 "Author name must be provided", s)
  | some nm =>
    let (s1, imageUrl) := match image with
      | none => (s, (none : Option Url))
      | some f =>
        let (s1, url) := uploadFileToFirebase s f "authors"
        (s1, some url)
    let newAuthor : AuthorRec := { id := s1.nextId, name := nm, image := imageUrl, books := [] }
    (.ok 201 newAuthor,
     { s1 with authors := s1.authors ++ [newAuthor], nextId := s1.nextId + 1 })

/-- An `updateAuthor` request: the optional new name and image file slot. -/
structure UpdateAuthorReq where
  name : Option String := none
  file : Option (List FileU) := none
deriving DecidableEq

/-- The `updateAuthor` handler: 404 when absent; when a replacement image
is supplied, delete the previous blob (a storage failure surfacing as
500) and upload the new one; then merge the body onto the record with
`findByIdAndUpdate`.  Renaming does not touch any Book's `author` field
nor any back-reference list. -/
def updateAuthor (s : State) (id : Nat) (r : UpdateAuthorReq) : Resp AuthorRec × State :=
  match s.authors.find? (fun a => a.id == id) with
  | none => (.err 404 "Author not found", s)
  | some authorData =>
    match ((match r.file.bind List.head? with
           | none => Except.ok (s, (none : Option Url))
           | some f =>
             match ((match authorData.image with
                    | none => Except.ok s
                    | some img => deleteBlobE s ("authors/" ++ fileNameOfUrl img)) :
                    Except String State) with
             | .error e => Except.error e
             | .ok s1 =>
               let (s2, url) := uploadFileToFirebase s1 f "authors"
               Except.ok (s2, some url)) : Except String (State × Option Url)) with
    | .error e => (.err 500 ("Failed to update author" ++ e), s)
    | .ok (s1, newImage) =>
      let merged : AuthorRec := { authorData with
        name := r.name.getD authorData.name
        image := match newImage with | some u => some u | none => authorData.image }
      let s2 := { s1 with authors := s1.authors.map (fun a => if a.id == id then merged else a) }
      (.ok 200 merged, s2)

/-- The book loop of `deleteAuthor`: for each enumerated Book, delete its
three blobs and then its record; the first storage failure stops the loop,
keeping every mutation already made (the error is reported alongside the
partial state). -/
def deleteAuthorBooks : List BookRec → State → State × Option String
  | [], s => (s, none)
  | b :: rest, s =>
    match deleteBookBlobs s b with
    | .error e => (s, some e)
    | .ok s1 => deleteAuthorBooks rest { s1 with books := removeBookDoc s1.books b.id }

/-- The storage keys of the blobs owned by each Book of a list, in the
order the `deleteAuthor` loop deletes them. -/
def allBookKeys (bs : List BookRec) : List String :=
  bs.flatMap (fun b => [bookKey b, coverKey b, sampleKey b])

/-- The `deleteAuthor` handler: 404 when absent; otherwise enumerate every
Book whose `author` field equals the Author's name, delete each one's
blobs and record, then clear the Author's back-reference list and delete
the Author record.  A storage failure mid-loop surfaces as a 500 wrapped
error with the mutations so far kept. -/
def deleteAuthor (s : State) (id : Nat) : Resp String × State :=
  match s.authors.find? (fun a => a.id == id) with
  | none => (.err 404 "Author not found", s)
  | some authorData =>
    match deleteAuthorBooks (s.books.filter (fun b => b.author == authorData.name)) s with
    | (s1, some e) => (.err 500 ("Failed to delete author and books: " ++ e), s1)
    | (s1, none) =>
      let s2 : State := { s1 with authors := s1.authors.map (fun a =>
          if a.id == id then { a with books := [] } else a) }
      let s3 : State := { s2 with authors := s2.authors.filter (fun a => a.id ≠ id) }
      (.ok 200 "Author and their books deleted successfully", s3)

/-- Well-formedness: book ids are primary keys, hence pairwise distinct. -/
def booksIdUnique (s : State) : Prop := (s.books.map BookRec.id).Nodup

/-- Well-formedness: author names are unique (the name is the join key). -/
def authorNamesUnique (s : State) : Prop := (s.authors.map AuthorRec.name).Nodup

/-- Well-formedness: author ids are primary keys, hence pairwise distinct. -/
def authorIdsUnique (s : State) : Prop := (s.authors.map AuthorRec.id).Nodup

/-- Well-formedness: category ids are primary keys, hence pairwise distinct. -/
def categoryIdsUnique (s : State) : Prop := (s.categories.map CategoryRec.id).Nodup

/-- Well-formedness: category titles are unique (the title is the join key). -/
def categoryTitlesUnique (s : State) : Prop := (s.categories.map CategoryRec.title).Nodup

/-- Well-formedness: the blob store holds each key at most once (as
`putBlob` maintains). -/
def blobsNodup (s : State) : Prop := s.blobs.Nodup

/-- Well-formedness: the fresh-id counter is above every existing book id. -/
def freshBookIds (s : State) : Prop := ∀ b ∈ s.books, b.id < s.nextId

/-- Soundness half of the Author back-reference invariant: every entry of
an Author's list is the id of a persisted Book whose `author` field is
that Author's name. -/
def authorRefsSound (s : State) : Prop :=
  ∀ a ∈ s.authors, ∀ bid ∈ a.books, ∃ b ∈ s.books, b.id = bid ∧ b.author = a.name

/-- Completeness half: every persisted Book appears in the list of each
Author carrying its `author` name. -/
def authorRefsComplete (s : State) : Prop :=
  ∀ b ∈ s.books, ∀ a ∈ s.authors, b.author = a.name → b.id ∈ a.books

/-- Soundness half of the Category reference invariant. -/
def categoryRefsSound (s : State) : Prop :=
  ∀ c ∈ s.categories, ∀ bid ∈ c.books, ∃ b ∈ s.books, b.id = bid ∧ b.category = c.title

/-- Completeness half of the Category reference invariant. -/
def categoryRefsComplete (s : State) : Prop :=
  ∀ b ∈ s.books, ∀ c ∈ s.categories, b.category = c.title → b.id ∈ c.books

/-- The bidirectional denormalization invariant: a Book's id appears in an
Author's back-reference list iff the Book's `author` name equals that
Author's name, and likewise for Category titles. -/
def RefInv (s : State) : Prop :=
  authorRefsSound s ∧ authorRefsComplete s ∧ categoryRefsSound s ∧ categoryRefsComplete s

instance (s : State) : Decidable (authorRefsSound s) := by
  unfold authorRefsSound; infer_instance

instance (s : State) : Decidable (authorRefsComplete s) := by
  unfold authorRefsComplete; infer_instance

instance (s : State) : Decidable (categoryRefsSound s) := by
  unfold categoryRefsSound; infer_instance

instance (s : State) : Decidable (categoryRefsComplete s) := by
  unfold categoryRefsComplete; infer_instance

instance (s : State) : Decidable (RefInv s) := by
  unfold RefInv; infer_instance

instance (s : State) : Decidable (booksIdUnique s) := by
  unfold booksIdUnique; infer_instance

instance (s : State) : Decidable (authorNamesUnique s) := by
  unfold authorNamesUnique; infer_instance

instance (s : State) : Decidable (authorIdsUnique s) := by
  unfold authorIdsUnique; infer_instance

instance (s : State) : Decidable (categoryIdsUnique s) := by
  unfold categoryIdsUnique; infer_instance

instance (s : State) : Decidable (categoryTitlesUnique s) := by
  unfold categoryTitlesUnique; infer_instance

instance (s : State) : Decidable (blobsNodup s) := by
  unfold blobsNodup; infer_instance

instance (s : State) : Decidable (freshBookIds s) := by
  unfold freshBookIds; infer_instance

/-- Concrete fixture: a fully-created book by alice, full price. -/
def book1 : BookRec :=
  { id := 1, title := "Dune", description := "d1", price := 10
    discountPercentage := 0, originalPrice := 10, discountedPrice := .num 10
    category := "fiction", author := "alice"
    sourcePath := ⟨"books", "a_src"⟩, coverImage := ⟨"covers", "a_cov"⟩
    samplePdf := ⟨"samples", "a_smp"⟩, createdAt := 1 }

/-- Concrete fixture: a discounted book by bob. -/
def book2 : BookRec :=
  { id := 2, title := "Emma", description := "d2", price := 20
    discountPercentage := 50, originalPrice := 20, discountedPrice := .num 10
    category := "fiction", author := "bob"
    sourcePath := ⟨"books", "b_src"⟩, coverImage := ⟨"covers", "b_cov"⟩
    samplePdf := ⟨"samples", "b_smp"⟩, createdAt := 2 }

/-- Concrete fixture: a small consistent catalog used by the witnesses:
two authors, one category, two books, one cart, one favorites list, and
one order (user 7 purchased book 1); all six owned blobs present. -/
def state1 : State :=
  { books := [book1, book2]
    authors := [⟨10, "alice", none, [1]⟩, ⟨11, "bob", none, [2]⟩]
    categories := [⟨20, "fiction", [1, 2]⟩]
    carts := [⟨30, [1, 2]⟩]
    favorites := [⟨40, [1]⟩]
    orders := [⟨50, 7, [1]⟩]
    blobs := ["books/a_src", "covers/a_cov", "samples/a_smp",
              "books/b_src", "covers/b_cov", "samples/b_smp"]
    nextId := 100 }

theorem find?_book_mem_id {s : State} {id : Nat} {b : BookRec}
    (h : s.books.find? (fun x => x.id == id) = some b) : b ∈ s.books ∧ b.id = id :=
  ⟨List.mem_of_find?_eq_some h, by simpa using List.find?_some h⟩

theorem pullCategoryRef_books (s : State) (b : BookRec) :
    (pullCategoryRef s b).books = s.books := by
  unfold pullCategoryRef
  split <;> rfl

theorem pullCategoryRef_authors (s : State) (b : BookRec) :
    (pullCategoryRef s b).authors = s.authors := by
  unfold pullCategoryRef
  split <;> rfl

theorem pullCategoryRef_carts (s : State) (b : BookRec) :
    (pullCategoryRef s b).carts = s.carts := by
  unfold pullCategoryRef
  split <;> rfl

theorem pullCategoryRef_favorites (s : State) (b : BookRec) :
    (pullCategoryRef s b).favorites = s.favorites := by
  unfold pullCategoryRef
  split <;> rfl

theorem pullCategoryRef_orders (s : State) (b : BookRec) :
    (pullCategoryRef s b).orders = s.orders := by
  unfold pullCategoryRef
  split <;> rfl

theorem pullCategoryRef_blobs (s : State) (b : BookRec) :
    (pullCategoryRef s b).blobs = s.blobs := by
  unfold pullCategoryRef
  split <;> rfl

theorem pullAuthorRef_books (s : State) (b : BookRec) :
    (pullAuthorRef s b).books = s.books := by
  unfold pullAuthorRef
  split <;> rfl

theorem pullAuthorRef_categories (s : State) (b : BookRec) :
    (pullAuthorRef s b).categories = s.categories := by
  unfold pullAuthorRef
  split <;> rfl

theorem pullAuthorRef_carts (s : State) (b : BookRec) :
    (pullAuthorRef s b).carts = s.carts := by
  unfold pullAuthorRef
  split <;> rfl

theorem pullAuthorRef_favorites (s : State) (b : BookRec) :
    (pullAuthorRef s b).favorites = s.favorites := by
  unfold pullAuthorRef
  split <;> rfl

theorem pullAuthorRef_orders (s : State) (b : BookRec) :
    (pullAuthorRef s b).orders = s.orders := by
  unfold pullAuthorRef
  split <;> rfl

theorem pullAuthorRef_blobs (s : State) (b : BookRec) :
    (pullAuthorRef s b).blobs = s.blobs := by
  unfold pullAuthorRef
  split <;> rfl

theorem pullBookRefs_books (s : State) (b : BookRec) :
    (pullBookRefs s b).books = s.books := by
  show (pullAuthorRef (pullCategoryRef s b) b).books = s.books
  rw [pullAuthorRef_books, pullCategoryRef_books]

theorem pullBookRefs_blobs (s : State) (b : BookRec) :
    (pullBookRefs s b).blobs = s.blobs := by
  show (pullAuthorRef (pullCategoryRef s b) b).blobs = s.blobs
  rw [pullAuthorRef_blobs, pullCategoryRef_blobs]

/-- Claim C10: an id with no matching Author record makes `getAuthorById`
return a success (200) response whose body is null, rather than failing
with a NotFound error as the other lookups do. -/
theorem claim10_getAuthor_absent_returns_null (s : State) (id : Nat)
    (h : s.authors.find? (fun a => a.id == id) = none) :
    getAuthorById s id = .ok 200 none := by
  simp [getAuthorById, h]

theorem claim10_witness :
    state1.authors.find? (fun a => a.id == 99) = none ∧
    getAuthorById state1 99 = .ok 200 none :=
  ⟨by decide, claim10_getAuthor_absent_returns_null state1 99 (by decide)⟩

/-- Claim C5: for an existing Book, `getBookById` returns a representation
in which cover and sample are always present and equal to the stored
assets, while the privileged source reference is present exactly when the
requester exists and holds an Order containing this book id. -/
theorem claim5_getBook_access_projection (s : State) (id : Nat) (user : Option Nat)
    (book : BookRec) (h : s.books.find? (fun b => b.id == id) = some book) :
    ∃ v, getBookById s id user = .ok 200 v ∧
      v.coverImage = book.coverImage ∧ v.samplePdf = book.samplePdf ∧
      v.sourcePath = (match user with
        | none => none
        | some uid => if hasOrderedBook s uid id then some book.sourcePath else none) := by
  cases user with
  | none =>
    exact ⟨book.toObject.withoutSource, by simp [getBookById, h], rfl, rfl, rfl⟩
  | some uid =>
    by_cases ho : hasOrderedBook s uid id
    · refine ⟨book.toObject, ?_, rfl, rfl, ?_⟩
      · simp [getBookById, h, ho]
      · simp [ho, BookRec.toObject]
    · refine ⟨book.toObject.withoutSource, ?_, rfl, rfl, ?_⟩
      · simp [getBookById, h, ho]
      · simp [ho, BookRec.toObject, BookView.withoutSource]

theorem claim5_witness :
    state1.books.find? (fun b => b.id == 1) = some book1 ∧
    (∃ v, getBookById state1 1 (some 7) = .ok 200 v ∧
      v.coverImage = book1.coverImage ∧ v.samplePdf = book1.samplePdf ∧
      v.sourcePath = (match (some 7 : Option Nat) with
        | none => none
        | some uid => if hasOrderedBook state1 uid 1 then some book1.sourcePath else none)) :=
  ⟨by decide, claim5_getBook_access_projection state1 1 (some 7) book1 (by decide)⟩

/-- Claim C1 (code bug): `createBook` computes the derived price from the
raw request before the `discountPercentage || 0` default is applied, so a
request with the discount absent persists a record whose stored discount
is 0 but whose `salePrice` is `NaN` rather than the list price: at list
price 10 with no discount the claim expects a persisted sale price of 10,
but the code persists `NaN`. -/
theorem claim1_absent_discount_persists_nan :
    ∃ st b, createBook state1
      { title := "New", description := "nd", price := 10, category := "fiction"
        authorName := "alice", discountPercentage := none
        files := { file := some [⟨"nsrc"⟩], cover := some [⟨"ncov"⟩], sample := some [⟨"nsmp"⟩] } }
      = (.ok 201 b, st) ∧
      b.price = 10 ∧ b.discountPercentage = 0 ∧ b.discountedPrice = JsNum.nan :=
  ⟨_, _, rfl, rfl, rfl, rfl⟩

/-- Claim C2 (code bug): `updateBookById` recombines the discount through
JavaScript `||`, which treats a supplied 0 as absent: updating the book
with list price 20 and stored discount 50 by supplying only
`discountPercentage = 0` persists discount 0 but a `salePrice` still
computed with the old discount 50 (10 instead of the claimed 20). -/
theorem claim2_update_discount_zero_uses_old_discount :
    ∃ st b, updateBookById state1 2 { body := { discountPercentage := some 0 } }
      = (.ok 200 b, st) ∧
      b.price = 20 ∧ b.discountPercentage = 0 ∧ b.discountedPrice = JsNum.num 10 := by
  refine ⟨_, _, rfl, rfl, rfl, ?_⟩
  show JsNum.num _ = JsNum.num 10
  norm_num [jsOrQ, book2]

/-- Claim C6 (code bug): a `createBook` request missing one of the three
file parts is meant to fail with the 400 validation response, but the
handler dereferences `req.files[slot][0]` before that check, so the
request dies with a thrown TypeError surfaced as a 500-class error — the
no-side-effect half does hold: the state is returned unchanged, with no
blob uploaded and no record written. -/
theorem claim6_missing_file_throws_before_validation :
    createBook state1
      { title := "New", description := "nd", price := 10, category := "fiction"
        authorName := "alice", discountPercentage := some 0
        files := { file := none, cover := some [⟨"ncov"⟩], sample := some [⟨"nsmp"⟩] } }
      = (.err 500 "TypeError: Cannot read properties of undefined", state1) := by
  decide

/-- Claim C7 counterexample: with book 1's blobs already absent from the
store, `deleteBookById` does not treat the missing blob as success — it
fails with a 500 storage error and the Book record survives. -/
theorem claim7_counterexample :
    (deleteBookById { state1 with blobs := [] } 1).1
      = .err 500 "Failed to delete book: StorageDeleteError: No such object" ∧
    ∃ b ∈ ((deleteBookById { state1 with blobs := [] } 1).2).books, b.id = 1 := by
  decide

/-- Claim C7 amended: when an owned blob is absent at its deletion
sub-step, the sub-step raises `StorageDeleteError` and the whole delete
fails with a 500-class error, leaving the record undeleted (reference
pulls already performed persist) — so a retried delete against an
already-partially-deleted target fatally errors instead of completing.
This holds for `deleteBookById` and for `deleteAuthor` (shown for the
first enumerated Book). -/
theorem claim7_amended_absent_blob_fails :
    (∀ s id book, s.books.find? (fun b => b.id == id) = some book →
      bookKey book ∉ s.blobs →
      (∃ msg, (deleteBookById s id).1 = Resp.err 500 msg) ∧
        book ∈ ((deleteBookById s id).2).books) ∧
    (∀ s id ad b rest, s.authors.find? (fun a => a.id == id) = some ad →
      s.books.filter (fun x => x.author == ad.name) = b :: rest →
      bookKey b ∉ s.blobs →
      (∃ msg, (deleteAuthor s id).1 = Resp.err 500 msg) ∧
        ad ∈ ((deleteAuthor s id).2).authors) := by
  constructor
  · intro s id book hfind hblob
    have hbooks := pullBookRefs_books s book
    have hblobs := pullBookRefs_blobs s book
    have hdel : deleteBookBlobs (pullBookRefs s book) book
        = .error "StorageDeleteError: No such object" := by
      unfold deleteBookBlobs deleteBlobE
      rw [hblobs]
      simp [hblob]
    constructor
    · exact ⟨"Failed to delete book: StorageDeleteError: No such object",
        by simp [deleteBookById, hfind, hdel]⟩
    · have : ((deleteBookById s id).2) = pullBookRefs s book := by
        simp [deleteBookById, hfind, hdel]
      rw [this, hbooks]
      exact (find?_book_mem_id hfind).1
  · intro s id ad b rest hfind hfilter hblob
    have hdel : deleteBookBlobs s b = .error "StorageDeleteError: No such object" := by
      unfold deleteBookBlobs deleteBlobE
      simp [hblob]
    have hloop : deleteAuthorBooks (s.books.filter (fun x => x.author == ad.name)) s
        = (s, some "StorageDeleteError: No such object") := by
      rw [hfilter]
      unfold deleteAuthorBooks
      rw [hdel]
    constructor
    · exact ⟨"Failed to delete author and books: StorageDeleteError: No such object",
        by simp [deleteAuthor, hfind, hloop]⟩
    · have : ((deleteAuthor s id).2) = s := by
        simp [deleteAuthor, hfind, hloop]
      rw [this]
      exact List.mem_of_find?_eq_some hfind

theorem claim7_witness :
    ({ state1 with blobs := [] } : State).books.find? (fun b => b.id == 1) = some book1 ∧
    bookKey book1 ∉ ({ state1 with blobs := [] } : State).blobs ∧
    ((∃ msg, (deleteBookById { state1 with blobs := [] } 1).1 = Resp.err 500 msg) ∧
      book1 ∈ ((deleteBookById { state1 with blobs := [] } 1).2).books) :=
  ⟨by decide, by decide,
    claim7_amended_absent_blob_fails.1 { state1 with blobs := [] } 1 book1
      (by decide) (by decide)⟩

theorem sortBooks_perm (sb : String) (l : List BookRec) : (sortBooks sb l).Perm l := by
  unfold sortBooks
  split
  any_goals exact List.perm_insertionSort _ _
  exact List.Perm.refl _

/-- Claim C8: with `sortBy = on-sale` the page (here: the whole match set,
which fits on page 1) consists exactly of the matching Books with
`discountPercentage > 0` ordered ascending by the derived price;
`price-low-to-high` and `price-high-to-low` order all matching Books
ascending and descending by the derived price with no extra filter. -/
theorem claim8_sort_modes (s : State) (q : BooksQuery)
    (hpage : q.page = 1)
    (hfit : (s.books.filter (matchesQuery q)).length ≤ q.limit) :
    (getBooks s q).items = (matchedBooks s q).map (fun b => b.toObject.withoutSource) ∧
    (q.sortBy = "on-sale" →
      (matchedBooks s q).Perm
        (s.books.filter (fun b => matchesBase q b && decide (0 < b.discountPercentage))) ∧
      (matchedBooks s q).Sorted priceAsc) ∧
    (q.sortBy = "price-low-to-high" →
      (matchedBooks s q).Perm (s.books.filter (fun b => matchesBase q b)) ∧
      (matchedBooks s q).Sorted priceAsc) ∧
    (q.sortBy = "price-high-to-low" →
      (matchedBooks s q).Perm (s.books.filter (fun b => matchesBase q b)) ∧
      (matchedBooks s q).Sorted priceDesc) := by
  have hlen : (matchedBooks s q).length ≤ q.limit := by
    calc (matchedBooks s q).length
        = (s.books.filter (matchesQuery q)).length := (sortBooks_perm _ _).length_eq
      _ ≤ q.limit := hfit
  refine ⟨?_, ?_, ?_, ?_⟩
  · have hitems : (getBooks s q).items
        = (((matchedBooks s q).drop ((q.page - 1) * q.limit)).take q.limit).map
          (fun b => b.toObject.withoutSource) := rfl
    rw [hitems, hpage]
    simp only [Nat.sub_self, Nat.zero_mul, List.drop_zero]
    rw [List.take_of_length_le hlen]
  · intro hsort
    have hm : matchedBooks s q
        = List.insertionSort priceAsc (s.books.filter (matchesQuery q)) := by
      unfold matchedBooks
      rw [hsort]
      rfl
    have hpred : matchesQuery q
        = fun b => matchesBase q b && decide (0 < b.discountPercentage) := by
      funext b
      unfold matchesQuery
      rw [hsort]
      simp
    constructor
    · rw [hm, hpred.symm]
      exact List.perm_insertionSort _ _
    · rw [hm]
      exact List.sorted_insertionSort priceAsc _
  · intro hsort
    have hm : matchedBooks s q
        = List.insertionSort priceAsc (s.books.filter (matchesQuery q)) := by
      unfold matchedBooks
      rw [hsort]
      rfl
    have hpred : matchesQuery q = fun b => matchesBase q b := by
      funext b
      unfold matchesQuery
      rw [hsort]
      simp
    constructor
    · rw [hm, hpred.symm]
      exact List.perm_insertionSort _ _
    · rw [hm]
      exact List.sorted_insertionSort priceAsc _
  · intro hsort
    have hm : matchedBooks s q
        = List.insertionSort priceDesc (s.books.filter (matchesQuery q)) := by
      unfold matchedBooks
      rw [hsort]
      rfl
    have hpred : matchesQuery q = fun b => matchesBase q b := by
      funext b
      unfold matchesQuery
      rw [hsort]
      simp
    constructor
    · rw [hm, hpred.symm]
      exact List.perm_insertionSort _ _
    · rw [hm]
      exact List.sorted_insertionSort priceDesc _

theorem claim8_witness :
    ({ sortBy := "on-sale" } : BooksQuery).page = 1 ∧
    (state1.books.filter (matchesQuery { sortBy := "on-sale" })).length
      ≤ ({ sortBy := "on-sale" } : BooksQuery).limit ∧
    ((getBooks state1 { sortBy := "on-sale" }).items
        = (matchedBooks state1 { sortBy := "on-sale" }).map (fun b => b.toObject.withoutSource) ∧
      (({ sortBy := "on-sale" } : BooksQuery).sortBy = "on-sale" →
        (matchedBooks state1 { sortBy := "on-sale" }).Perm
          (state1.books.filter (fun b =>
            matchesBase { sortBy := "on-sale" } b && decide (0 < b.discountPercentage))) ∧
        (matchedBooks state1 { sortBy := "on-sale" }).Sorted priceAsc) ∧
      (({ sortBy := "on-sale" } : BooksQuery).sortBy = "price-low-to-high" →
        (matchedBooks state1 { sortBy := "on-sale" }).Perm
          (state1.books.filter (fun b => matchesBase { sortBy := "on-sale" } b)) ∧
        (matchedBooks state1 { sortBy := "on-sale" }).Sorted priceAsc) ∧
      (({ sortBy := "on-sale" } : BooksQuery).sortBy = "price-high-to-low" →
        (matchedBooks state1 { sortBy := "on-sale" }).Perm
          (state1.books.filter (fun b => matchesBase { sortBy := "on-sale" } b)) ∧
        (matchedBooks state1 { sortBy := "on-sale" }).Sorted priceDesc)) :=
  ⟨rfl, by decide, claim8_sort_modes state1 { sortBy := "on-sale" } rfl (by decide)⟩

theorem pullBookRefs_carts (s : State) (b : BookRec) :
    ∀ c ∈ (pullBookRefs s b).carts, b.id ∉ c.items := by
  intro c hc
  have hform : (pullBookRefs s b).carts
      = ((pullAuthorRef (pullCategoryRef s b) b).carts).map
        (fun c => { c with items := c.items.filter (fun x => x ≠ b.id) }) := rfl
  rw [hform] at hc
  simp only [List.mem_map] at hc
  obtain ⟨c0, _, rfl⟩ := hc
  simp

theorem pullBookRefs_favorites (s : State) (b : BookRec) :
    ∀ f ∈ (pullBookRefs s b).favorites, b.id ∉ f.books := by
  intro f hf
  have hform : (pullBookRefs s b).favorites
      = ((pullAuthorRef (pullCategoryRef s b) b).favorites).map
        (fun f => { f with books := f.books.filter (fun x => x ≠ b.id) }) := rfl
  rw [hform] at hf
  simp only [List.mem_map] at hf
  obtain ⟨f0, _, rfl⟩ := hf
  simp

theorem pullBookRefs_orders (s : State) (b : BookRec) :
    ∀ o ∈ (pullBookRefs s b).orders, b.id ∉ o.books := by
  intro o ho
  have hform : (pullBookRefs s b).orders
      = ((pullAuthorRef (pullCategoryRef s b) b).orders).map
        (fun o => { o with books := o.books.filter (fun x => x ≠ b.id) }) := rfl
  rw [hform] at ho
  simp only [List.mem_map] at ho
  obtain ⟨o0, _, rfl⟩ := ho
  simp

theorem pullCategoryRef_categories_prop (s : State) (b : BookRec)
    (hcatU : categoryTitlesUnique s) :
    ∀ c ∈ (pullCategoryRef s b).categories, c.title = b.category → b.id ∉ c.books := by
  unfold pullCategoryRef
  cases hfind : s.categories.find? (fun c => c.title == b.category) with
  | none =>
    intro c hc htitle
    exact absurd (by simpa using htitle)
      (by simpa using List.find?_eq_none.mp hfind c hc)
  | some cat =>
    intro c hc htitle
    simp only [List.mem_map] at hc
    obtain ⟨c0, hc0, rfl⟩ := hc
    by_cases hid : (c0.id == cat.id) = true
    · rw [if_pos hid]
      simp
    · rw [if_neg hid] at htitle ⊢
      have hcat : cat ∈ s.categories := List.mem_of_find?_eq_some hfind
      have hct : cat.title = b.category := by simpa using List.find?_some hfind
      have heq : c0 = cat := List.inj_on_of_nodup_map hcatU hc0 hcat (htitle.trans hct.symm)
      rw [heq] at hid
      simp at hid

theorem pullAuthorRef_authors_prop (s : State) (b : BookRec)
    (hauthU : authorNamesUnique s) :
    ∀ a ∈ (pullAuthorRef s b).authors, a.name = b.author → b.id ∉ a.books := by
  unfold pullAuthorRef
  cases hfind : s.authors.find? (fun a => a.name == b.author) with
  | none =>
    intro a ha hname
    exact absurd (by simpa using hname)
      (by simpa using List.find?_eq_none.mp hfind a ha)
  | some au =>
    intro a ha hname
    simp only [List.mem_map] at ha
    obtain ⟨a0, ha0, rfl⟩ := ha
    by_cases hid : (a0.id == au.id) = true
    · rw [if_pos hid]
      simp
    · rw [if_neg hid] at hname ⊢
      have hau : au ∈ s.authors := List.mem_of_find?_eq_some hfind
      have han : au.name = b.author := by simpa using List.find?_some hfind
      have heq : a0 = au := List.inj_on_of_nodup_map hauthU ha0 hau (hname.trans han.symm)
      rw [heq] at hid
      simp at hid

theorem pullBookRefs_categories (s : State) (b : BookRec)
    (hcatU : categoryTitlesUnique s) :
    ∀ c ∈ (pullBookRefs s b).categories, c.title = b.category → b.id ∉ c.books := by
  have hform : (pullBookRefs s b).categories = (pullCategoryRef s b).categories := by
    show (pullAuthorRef (pullCategoryRef s b) b).categories = _
    rw [pullAuthorRef_categories]
  rw [hform]
  exact pullCategoryRef_categories_prop s b hcatU

theorem pullBookRefs_authors (s : State) (b : BookRec)
    (hauthU : authorNamesUnique s) :
    ∀ a ∈ (pullBookRefs s b).authors, a.name = b.author → b.id ∉ a.books := by
  have hform : (pullBookRefs s b).authors = (pullAuthorRef (pullCategoryRef s b) b).authors :=
    rfl
  rw [hform]
  have hU : authorNamesUnique (pullCategoryRef s b) := by
    unfold authorNamesUnique
    rw [pullCategoryRef_authors]
    exact hauthU
  exact pullAuthorRef_authors_prop (pullCategoryRef s b) b hU

theorem deleteBookBlobs_ok (s : State) (b : BookRec)
    (hnodup : s.blobs.Nodup)
    (h1 : bookKey b ∈ s.blobs) (h2 : coverKey b ∈ s.blobs) (h3 : sampleKey b ∈ s.blobs)
    (hk : ([bookKey b, coverKey b, sampleKey b] : List String).Nodup) :
    deleteBookBlobs s b = .ok { s with blobs :=
      ((s.blobs.erase (bookKey b)).erase (coverKey b)).erase (sampleKey b) } := by
  have hcb : coverKey b ≠ bookKey b := by
    intro h
    simp [h] at hk
  have hsb : sampleKey b ≠ bookKey b := by
    intro h
    simp [h] at hk
  have hsc : sampleKey b ≠ coverKey b := by
    intro h
    simp [h] at hk
  have h2' : coverKey b ∈ s.blobs.erase (bookKey b) :=
    (hnodup.mem_erase_iff).mpr ⟨hcb, h2⟩
  have h3' : sampleKey b ∈ (s.blobs.erase (bookKey b)).erase (coverKey b) :=
    ((hnodup.erase _).mem_erase_iff).mpr ⟨hsc, (hnodup.mem_erase_iff).mpr ⟨hsb, h3⟩⟩
  unfold deleteBookBlobs deleteBlobE
  simp [h1, h2', h3']

theorem removeBookDoc_ne (l : List BookRec) (i : Nat) :
    ∀ b ∈ removeBookDoc l i, b.id ≠ i := by
  intro b hb
  simp [removeBookDoc] at hb
  exact hb.2

/-- Claim C3: deleting an existing Book (in a well-formed state where its
three blobs are present and join keys are unique) succeeds and removes the
book id from its Category's list and its Author's back-reference list,
removes every matching line item from every Cart, Favorites and Order
document, deletes the three owned blobs, and deletes the Book record. -/
theorem claim3_deleteBook_cascades (s : State) (id : Nat) (book : BookRec)
    (hfind : s.books.find? (fun b => b.id == id) = some book)
    (hcatU : categoryTitlesUnique s) (hauthU : authorNamesUnique s)
    (hnodup : blobsNodup s)
    (h1 : bookKey book ∈ s.blobs) (h2 : coverKey book ∈ s.blobs) (h3 : sampleKey book ∈ s.blobs)
    (hk : ([bookKey book, coverKey book, sampleKey book] : List String).Nodup) :
    ∃ s2, deleteBookById s id = (.ok 200 "Book and related data deleted", s2) ∧
      (∀ b ∈ s2.books, b.id ≠ book.id) ∧
      (∀ c ∈ s2.categories, c.title = book.category → book.id ∉ c.books) ∧
      (∀ a ∈ s2.authors, a.name = book.author → book.id ∉ a.books) ∧
      (∀ c ∈ s2.carts, book.id ∉ c.items) ∧
      (∀ f ∈ s2.favorites, book.id ∉ f.books) ∧
      (∀ o ∈ s2.orders, book.id ∉ o.books) ∧
      bookKey book ∉ s2.blobs ∧ coverKey book ∉ s2.blobs ∧ sampleKey book ∉ s2.blobs := by
  have hpbl := pullBookRefs_blobs s book
  have hnodup' : (pullBookRefs s book).blobs.Nodup := by rw [hpbl]; exact hnodup
  have hdel := deleteBookBlobs_ok (pullBookRefs s book) book hnodup'
    (by rw [hpbl]; exact h1) (by rw [hpbl]; exact h2) (by rw [hpbl]; exact h3) hk
  have heq : deleteBookById s id = (.ok 200 "Book and related data deleted",
      { pullBookRefs s book with
          books := removeBookDoc (pullBookRefs s book).books book.id
          blobs := (((pullBookRefs s book).blobs.erase (bookKey book)).erase
            (coverKey book)).erase (sampleKey book) }) := by
    simp [deleteBookById, hfind, hdel]
  refine ⟨_, heq, ?_, ?_, ?_, ?_, ?_, ?_, ?_, ?_, ?_⟩
  · exact removeBookDoc_ne _ _
  · exact pullBookRefs_categories s book hcatU
  · exact pullBookRefs_authors s book hauthU
  · exact pullBookRefs_carts s book
  · exact pullBookRefs_favorites s book
  · exact pullBookRefs_orders s book
  · intro hm
    exact hnodup'.not_mem_erase
      ((List.erase_sublist _ _).subset ((List.erase_sublist _ _).subset hm))
  · intro hm
    exact (hnodup'.erase _).not_mem_erase ((List.erase_sublist _ _).subset hm)
  · exact ((hnodup'.erase _).erase _).not_mem_erase

theorem claim3_witness :
    state1.books.find? (fun b => b.id == 1) = some book1 ∧
    categoryTitlesUnique state1 ∧ authorNamesUnique state1 ∧ blobsNodup state1 ∧
    bookKey book1 ∈ state1.blobs ∧ coverKey book1 ∈ state1.blobs ∧
    sampleKey book1 ∈ state1.blobs ∧
    ([bookKey book1, coverKey book1, sampleKey book1] : List String).Nodup ∧
    (∃ s2, deleteBookById state1 1 = (.ok 200 "Book and related data deleted", s2) ∧
      (∀ b ∈ s2.books, b.id ≠ book1.id) ∧
      (∀ c ∈ s2.categories, c.title = book1.category → book1.id ∉ c.books) ∧
      (∀ a ∈ s2.authors, a.name = book1.author → book1.id ∉ a.books) ∧
      (∀ c ∈ s2.carts, book1.id ∉ c.items) ∧
      (∀ f ∈ s2.favorites, book1.id ∉ f.books) ∧
      (∀ o ∈ s2.orders, book1.id ∉ o.books) ∧
      bookKey book1 ∉ s2.blobs ∧ coverKey book1 ∉ s2.blobs ∧ sampleKey book1 ∉ s2.blobs) :=
  ⟨by decide, by decide, by decide, by decide, by decide, by decide, by decide, by decide,
    claim3_deleteBook_cascades state1 1 book1 (by decide) (by decide) (by decide) (by decide)
      (by decide) (by decide) (by decide) (by decide)⟩

theorem mem_erase3_iff (l : List String) (hl : l.Nodup) (k1 k2 k3 k : String) :
    k ∈ ((l.erase k1).erase k2).erase k3 ↔ (k ∈ l ∧ k ≠ k1 ∧ k ≠ k2 ∧ k ≠ k3) := by
  rw [List.Nodup.mem_erase_iff ((hl.erase k1).erase k2),
    List.Nodup.mem_erase_iff (hl.erase k1), List.Nodup.mem_erase_iff hl]
  tauto

theorem deleteAuthorBooks_spec (bs : List BookRec) : ∀ (s : State),
    s.blobs.Nodup → (allBookKeys bs).Nodup →
    (∀ k ∈ allBookKeys bs, k ∈ s.blobs) →
    ∃ t, deleteAuthorBooks bs s = (t, none) ∧
      (∀ x : BookRec, x ∈ t.books ↔ (x ∈ s.books ∧ x.id ∉ bs.map BookRec.id)) ∧
      t.authors = s.authors ∧
      (∀ k : String, k ∈ t.blobs ↔ (k ∈ s.blobs ∧ k ∉ allBookKeys bs)) ∧
      t.blobs.Nodup := by
  induction bs with
  | nil =>
    intro s hn _ _
    exact ⟨s, rfl, by simp, rfl, by simp [allBookKeys], hn⟩
  | cons b rest ih =>
    intro s hn hkn hkp
    have hsplit : allBookKeys (b :: rest)
        = [bookKey b, coverKey b, sampleKey b] ++ allBookKeys rest := by
      simp [allBookKeys]
    rw [hsplit] at hkn hkp
    have hk1 : bookKey b ∈ s.blobs := hkp _ (by simp)
    have hk2 : coverKey b ∈ s.blobs := hkp _ (by simp)
    have hk3 : sampleKey b ∈ s.blobs := hkp _ (by simp)
    have h3n : ([bookKey b, coverKey b, sampleKey b] : List String).Nodup :=
      hkn.of_append_left
    have hdisj := List.disjoint_of_nodup_append hkn
    have hdel := deleteBookBlobs_ok s b hn hk1 hk2 hk3 h3n
    set e3 : List String := ((s.blobs.erase (bookKey b)).erase (coverKey b)).erase (sampleKey b)
      with he3
    have he3mem : ∀ k, k ∈ e3 ↔ (k ∈ s.blobs ∧ k ≠ bookKey b ∧ k ≠ coverKey b ∧ k ≠ sampleKey b) :=
      fun k => mem_erase3_iff s.blobs hn _ _ _ k
    have he3n : e3.Nodup := ((hn.erase _).erase _).erase _
    have hrest : ∀ k ∈ allBookKeys rest, k ∈ e3 := by
      intro k hk
      rw [he3mem k]
      refine ⟨hkp k (by simp [hk]), ?_, ?_, ?_⟩
      · intro h
        exact hdisj (by simp [h]) hk
      · intro h
        exact hdisj (by simp [h]) hk
      · intro h
        exact hdisj (by simp [h]) hk
    obtain ⟨t, hteq, htbooks, htauth, htblobs, htnodup⟩ :=
      ih { s with blobs := e3, books := removeBookDoc s.books b.id } he3n
        hkn.of_append_right hrest
    refine ⟨t, ?_, ?_, htauth, ?_, htnodup⟩
    · show deleteAuthorBooks (b :: rest) s = (t, none)
      unfold deleteAuthorBooks
      rw [hdel]
      exact hteq
    · intro x
      rw [htbooks x]
      simp only [removeBookDoc, List.mem_filter, List.map_cons, List.mem_cons]
      constructor
      · rintro ⟨⟨hx, hne⟩, hnr⟩
        exact ⟨hx, by simpa using And.intro (by simpa using hne) hnr⟩
      · rintro ⟨hx, hni⟩
        simp only [not_or] at hni
        exact ⟨⟨hx, by simpa using hni.1⟩, hni.2⟩
    · intro k
      rw [htblobs k, he3mem k, hsplit]
      simp only [List.mem_append, List.mem_cons, List.not_mem_nil]
      tauto

/-- Claim C4: deleting an existing Author (in a well-formed state where
the owned blobs of its Books are present with distinct keys) deletes, for
each Book whose author name equals the Author's name, that Book's three
blobs and its record, then deletes the Author record; afterwards the
author listing excludes the Author and the book listings exclude every
Book it owned. -/
theorem claim4_deleteAuthor_cascades (s : State) (id : Nat) (ad : AuthorRec)
    (hfind : s.authors.find? (fun a => a.id == id) = some ad)
    (hnodup : blobsNodup s)
    (hkeysN : (allBookKeys (s.books.filter (fun b => b.author == ad.name))).Nodup)
    (hkeysP : ∀ k ∈ allBookKeys (s.books.filter (fun b => b.author == ad.name)), k ∈ s.blobs) :
    ∃ s2, deleteAuthor s id = (.ok 200 "Author and their books deleted successfully", s2) ∧
      (∀ a ∈ s2.authors, a.id ≠ id) ∧
      (∀ b ∈ s2.books, b.author ≠ ad.name) ∧
      (∀ b0 ∈ s.books, b0.author = ad.name →
        bookKey b0 ∉ s2.blobs ∧ coverKey b0 ∉ s2.blobs ∧ sampleKey b0 ∉ s2.blobs) ∧
      getAllAuthors s2 = .ok 200 s2.authors ∧ getAllBooks s2 = .ok 200 s2.books := by
  obtain ⟨t, hteq, htbooks, htauth, htblobs, _⟩ :=
    deleteAuthorBooks_spec (s.books.filter (fun b => b.author == ad.name)) s hnodup hkeysN hkeysP
  refine ⟨{ t with authors := (t.authors.map (fun a =>
      if a.id == id then { a with books := [] } else a)).filter (fun a => a.id ≠ id) },
    ?_, ?_, ?_, ?_, rfl, rfl⟩
  · show deleteAuthor s id = _
    unfold deleteAuthor
    rw [hfind]
    dsimp only
    rw [hteq]
  · intro a ha
    simp only [List.mem_filter, decide_eq_true_eq] at ha
    exact ha.2
  · intro b hb
    have hbt : b ∈ t.books := hb
    rw [htbooks b] at hbt
    intro hname
    have hbmem : b ∈ s.books.filter (fun b => b.author == ad.name) := by
      simp only [List.mem_filter]
      exact ⟨hbt.1, by simp [hname]⟩
    exact hbt.2 (List.mem_map_of_mem BookRec.id hbmem)
  · intro b0 hb0 hname
    have hbmem : b0 ∈ s.books.filter (fun b => b.author == ad.name) := by
      simp only [List.mem_filter]
      exact ⟨hb0, by simp [hname]⟩
    have hkeys : ∀ k ∈ ([bookKey b0, coverKey b0, sampleKey b0] : List String),
        k ∈ allBookKeys (s.books.filter (fun b => b.author == ad.name)) := by
      intro k hk
      simp only [allBookKeys, List.mem_flatMap]
      exact ⟨b0, hbmem, hk⟩
    refine ⟨?_, ?_, ?_⟩ <;>
      · intro hm
        have := (htblobs _).mp hm
        exact this.2 (hkeys _ (by simp))

theorem claim4_witness :
    state1.authors.find? (fun a => a.id == 10) = some (⟨10, "alice", none, [1]⟩ : AuthorRec) ∧
    blobsNodup state1 ∧
    (allBookKeys (state1.books.filter (fun b =>
      b.author == (⟨10, "alice", none, [1]⟩ : AuthorRec).name))).Nodup ∧
    (∀ k ∈ allBookKeys (state1.books.filter (fun b =>
      b.author == (⟨10, "alice", none, [1]⟩ : AuthorRec).name)), k ∈ state1.blobs) ∧
    (∃ s2, deleteAuthor state1 10
        = (.ok 200 "Author and their books deleted successfully", s2) ∧
      (∀ a ∈ s2.authors, a.id ≠ 10) ∧
      (∀ b ∈ s2.books, b.author ≠ (⟨10, "alice", none, [1]⟩ : AuthorRec).name) ∧
      (∀ b0 ∈ state1.books, b0.author = (⟨10, "alice", none, [1]⟩ : AuthorRec).name →
        bookKey b0 ∉ s2.blobs ∧ coverKey b0 ∉ s2.blobs ∧ sampleKey b0 ∉ s2.blobs) ∧
      getAllAuthors s2 = .ok 200 s2.authors ∧ getAllBooks s2 = .ok 200 s2.books) :=
  ⟨by decide, by decide, by decide, by decide,
    claim4_deleteAuthor_cascades state1 10 ⟨10, "alice", none, [1]⟩
      (by decide) (by decide) (by decide) (by decide)⟩

theorem deleteBlobE_ok_docs {s t : State} {k : String} (h : deleteBlobE s k = .ok t) :
    t.books = s.books ∧ t.authors = s.authors ∧ t.categories = s.categories := by
  unfold deleteBlobE at h
  split at h
  · injection h with h
    subst h
    exact ⟨rfl, rfl, rfl⟩
  · simp at h

theorem deleteBookBlobs_ok_docs {s t : State} {b : BookRec}
    (h : deleteBookBlobs s b = .ok t) :
    t.books = s.books ∧ t.authors = s.authors ∧ t.categories = s.categories := by
  unfold deleteBookBlobs at h
  cases h1 : deleteBlobE s (bookKey b) with
  | error e => rw [h1] at h; simp at h
  | ok s1 =>
    rw [h1] at h
    dsimp only at h
    cases h2 : deleteBlobE s1 (coverKey b) with
    | error e => rw [h2] at h; simp at h
    | ok sB =>
      rw [h2] at h
      dsimp only at h
      obtain ⟨e1, e2, e3⟩ := deleteBlobE_ok_docs h1
      obtain ⟨f1, f2, f3⟩ := deleteBlobE_ok_docs h2
      obtain ⟨g1, g2, g3⟩ := deleteBlobE_ok_docs h
      exact ⟨g1.trans (f1.trans e1), g2.trans (f2.trans e2), g3.trans (f3.trans e3)⟩

theorem pullAuthorRef_authors_eq (s : State) (b : BookRec) :
    (pullAuthorRef s b).authors
      = (match s.authors.find? (fun a => a.name == b.author) with
        | none => s.authors
        | some au => s.authors.map (fun a =>
            if a.id == au.id then { a with books := a.books.filter (fun x => x ≠ b.id) }
            else a)) := by
  cases hf : s.authors.find? (fun a => a.name == b.author) <;> simp [pullAuthorRef, hf]

theorem pullCategoryRef_categories_eq (s : State) (b : BookRec) :
    (pullCategoryRef s b).categories
      = (match s.categories.find? (fun c => c.title == b.category) with
        | none => s.categories
        | some cat => s.categories.map (fun c =>
            if c.id == cat.id then { c with books := c.books.filter (fun x => x ≠ b.id) }
            else c)) := by
  cases hf : s.categories.find? (fun c => c.title == b.category) <;> simp [pullCategoryRef, hf]

theorem createBookCore_fields (s : State) (r : CreateBookReq)
    (bf cf sf : FileU) (ad : AuthorRec) (cd : CategoryRec) (op : ℚ) (dp : JsNum) :
    (createBookCore s r bf cf sf ad cd op dp).1.id = s.nextId ∧
    (createBookCore s r bf cf sf ad cd op dp).1.author = ad.name ∧
    (createBookCore s r bf cf sf ad cd op dp).1.category = r.category ∧
    (createBookCore s r bf cf sf ad cd op dp).2.books
      = s.books ++ [(createBookCore s r bf cf sf ad cd op dp).1] ∧
    (createBookCore s r bf cf sf ad cd op dp).2.authors
      = s.authors.map (fun a => if a.id == ad.id
          then { a with books := a.books ++ [s.nextId] } else a) ∧
    (createBookCore s r bf cf sf ad cd op dp).2.categories
      = s.categories.map (fun c => if c.id == cd.id
          then { c with books := c.books ++ [s.nextId] } else c) :=
  ⟨rfl, rfl, rfl, rfl, rfl, rfl⟩

theorem createBookCore_preserves_refinv (s : State) (r : CreateBookReq)
    (bf cf sf : FileU) (ad : AuthorRec) (cd : CategoryRec) (op : ℚ) (dp : JsNum)
    (hadmem : ad ∈ s.authors) (hcdmem : cd ∈ s.categories) (hcdtitle : cd.title = r.category)
    (hnameU : authorNamesUnique s) (htitleU : categoryTitlesUnique s)
    (haid : authorIdsUnique s) (hcid : categoryIdsUnique s)
    (hinv : RefInv s) :
    RefInv (createBookCore s r bf cf sf ad cd op dp).2 := by
  obtain ⟨hAS, hAC, hCS, hCC⟩ := hinv
  obtain ⟨hid, hauth, hcat, hbooks, hauthors, hcats⟩ :=
    createBookCore_fields s r bf cf sf ad cd op dp
  refine ⟨?_, ?_, ?_, ?_⟩
  · intro a2 ha2 bid hbid2
    rw [hauthors] at ha2
    simp only [List.mem_map] at ha2
    obtain ⟨a0, ha0, rfl⟩ := ha2
    by_cases hida : (a0.id == ad.id) = true
    · rw [if_pos hida] at hbid2 ⊢
      rw [List.mem_append] at hbid2
      cases hbid2 with
      | inl hold =>
        obtain ⟨b', hb', hbid', hba'⟩ := hAS a0 ha0 bid hold
        exact ⟨b', by rw [hbooks]; exact List.mem_append_left _ hb', hbid', hba'⟩
      | inr hnew =>
        have hbid' : bid = s.nextId := by simpa using hnew
        have ha0ad : a0 = ad := List.inj_on_of_nodup_map haid ha0 hadmem (by simpa using hida)
        refine ⟨(createBookCore s r bf cf sf ad cd op dp).1,
          by rw [hbooks]; exact List.mem_append_right _ (by simp), ?_, ?_⟩
        · rw [hid, hbid']
        · rw [hauth, ha0ad]
    · rw [if_neg hida] at hbid2 ⊢
      obtain ⟨b', hb', hbid', hba'⟩ := hAS a0 ha0 bid hbid2
      exact ⟨b', by rw [hbooks]; exact List.mem_append_left _ hb', hbid', hba'⟩
  · intro b2 hb2 a2 ha2 hname
    rw [hbooks, List.mem_append] at hb2
    rw [hauthors] at ha2
    simp only [List.mem_map] at ha2
    obtain ⟨a0, ha0, rfl⟩ := ha2
    cases hb2 with
    | inl hb2 =>
      by_cases hida : (a0.id == ad.id) = true
      · rw [if_pos hida] at hname ⊢
        exact List.mem_append_left _ (hAC b2 hb2 a0 ha0 hname)
      · rw [if_neg hida] at hname ⊢
        exact hAC b2 hb2 a0 ha0 hname
    | inr hb2 =>
      have hb2' : b2 = (createBookCore s r bf cf sf ad cd op dp).1 := by simpa using hb2
      subst hb2'
      by_cases hida : (a0.id == ad.id) = true
      · rw [if_pos hida]
        rw [hid]
        exact List.mem_append_right _ (by simp)
      · rw [if_neg hida] at hname
        have ha0ad : a0 = ad :=
          List.inj_on_of_nodup_map hnameU ha0 hadmem (by rw [← hname, hauth])
        rw [ha0ad] at hida
        simp at hida
  · intro c2 hc2 bid hbid2
    rw [hcats] at hc2
    simp only [List.mem_map] at hc2
    obtain ⟨c0, hc0, rfl⟩ := hc2
    by_cases hidc : (c0.id == cd.id) = true
    · rw [if_pos hidc] at hbid2 ⊢
      rw [List.mem_append] at hbid2
      cases hbid2 with
      | inl hold =>
        obtain ⟨b', hb', hbid', hbc'⟩ := hCS c0 hc0 bid hold
        exact ⟨b', by rw [hbooks]; exact List.mem_append_left _ hb', hbid', hbc'⟩
      | inr hnew =>
        have hbid' : bid = s.nextId := by simpa using hnew
        have hc0cd : c0 = cd := List.inj_on_of_nodup_map hcid hc0 hcdmem (by simpa using hidc)
        refine ⟨(createBookCore s r bf cf sf ad cd op dp).1,
          by rw [hbooks]; exact List.mem_append_right _ (by simp), ?_, ?_⟩
        · rw [hid, hbid']
        · rw [hcat, hc0cd, hcdtitle]
    · rw [if_neg hidc] at hbid2 ⊢
      obtain ⟨b', hb', hbid', hbc'⟩ := hCS c0 hc0 bid hbid2
      exact ⟨b', by rw [hbooks]; exact List.mem_append_left _ hb', hbid', hbc'⟩
  · intro b2 hb2 c2 hc2 htitle
    rw [hbooks, List.mem_append] at hb2
    rw [hcats] at hc2
    simp only [List.mem_map] at hc2
    obtain ⟨c0, hc0, rfl⟩ := hc2
    cases hb2 with
    | inl hb2 =>
      by_cases hidc : (c0.id == cd.id) = true
      · rw [if_pos hidc] at htitle ⊢
        exact List.mem_append_left _ (hCC b2 hb2 c0 hc0 htitle)
      · rw [if_neg hidc] at htitle ⊢
        exact hCC b2 hb2 c0 hc0 htitle
    | inr hb2 =>
      have hb2' : b2 = (createBookCore s r bf cf sf ad cd op dp).1 := by simpa using hb2
      subst hb2'
      by_cases hidc : (c0.id == cd.id) = true
      · rw [if_pos hidc]
        rw [hid]
        exact List.mem_append_right _ (by simp)
      · rw [if_neg hidc] at htitle
        have hc0cd : c0 = cd :=
          List.inj_on_of_nodup_map htitleU hc0 hcdmem (by rw [← htitle, hcat, hcdtitle])
        rw [hc0cd] at hidc
        simp at hidc

theorem createBook_preserves_refinv (s : State) (r : CreateBookReq) (nb : BookRec) (s2 : State)
    (hnameU : authorNamesUnique s) (htitleU : categoryTitlesUnique s)
    (haid : authorIdsUnique s) (hcid : categoryIdsUnique s)
    (hinv : RefInv s)
    (h : createBook s r = (.ok 201 nb, s2)) : RefInv s2 := by
  unfold createBook at h
  cases h1 : jsIndex0 r.files.file with
  | error e => rw [h1] at h; simp at h
  | ok o1 =>
  rw [h1] at h
  dsimp only at h
  cases h2 : jsIndex0 r.files.cover with
  | error e => rw [h2] at h; simp at h
  | ok o2 =>
  rw [h2] at h
  dsimp only at h
  cases h3 : jsIndex0 r.files.sample with
  | error e => rw [h3] at h; simp at h
  | ok o3 =>
  rw [h3] at h
  dsimp only at h
  cases o1 with
  | none => simp at h
  | some bf =>
  cases o2 with
  | none => simp at h
  | some cf =>
  cases o3 with
  | none => simp at h
  | some sf =>
  dsimp only at h
  cases hfa : s.authors.find? (fun a => a.name == r.authorName) with
  | none => rw [hfa] at h; simp at h
  | some ad =>
  rw [hfa] at h
  dsimp only at h
  cases hfc : s.categories.find? (fun c => c.title == r.category) with
  | none => rw [hfc] at h; simp at h
  | some cd =>
  rw [hfc] at h
  dsimp only at h
  have hs2 : s2 = (createBookCore s r bf cf sf ad cd r.price
      (JsNum.sub (.num r.price)
        (JsNum.mul (.num r.price) (JsNum.div (jsOfOpt r.discountPercentage) (.num 100))))).2 :=
    (congrArg Prod.snd h).symm
  rw [hs2]
  exact createBookCore_preserves_refinv s r bf cf sf ad cd _ _
    (List.mem_of_find?_eq_some hfa) (List.mem_of_find?_eq_some hfc)
    (by simpa using List.find?_some hfc) hnameU htitleU haid hcid hinv

theorem deleteBook_preserves_refinv (s : State) (id : Nat) (msg : String) (s2 : State)
    (hbid : booksIdUnique s) (hnameU : authorNamesUnique s) (htitleU : categoryTitlesUnique s)
    (hinv : RefInv s)
    (h : deleteBookById s id = (.ok 200 msg, s2)) : RefInv s2 := by
  obtain ⟨hAS, hAC, hCS, hCC⟩ := hinv
  unfold deleteBookById at h
  cases hfind : s.books.find? (fun b => b.id == id) with
  | none => rw [hfind] at h; simp at h
  | some book =>
  rw [hfind] at h
  dsimp only at h
  cases hdel : deleteBookBlobs (pullBookRefs s book) book with
  | error e => rw [hdel] at h; simp at h
  | ok sB =>
  rw [hdel] at h
  dsimp only at h
  have hs2 : s2 = { sB with books := removeBookDoc sB.books book.id } :=
    (congrArg Prod.snd h).symm
  obtain ⟨hb, ha, hc⟩ := deleteBookBlobs_ok_docs hdel
  have hbook_mem : book ∈ s.books := List.mem_of_find?_eq_some hfind
  have hbooks2 : ∀ x : BookRec, x ∈ s2.books ↔ (x ∈ s.books ∧ x.id ≠ book.id) := by
    intro x
    rw [hs2]
    show x ∈ removeBookDoc sB.books book.id ↔ _
    rw [hb, pullBookRefs_books]
    simp [removeBookDoc]
  have hauthors2 : s2.authors
      = (match s.authors.find? (fun a => a.name == book.author) with
        | none => s.authors
        | some au => s.authors.map (fun a =>
            if a.id == au.id then { a with books := a.books.filter (fun x => x ≠ book.id) }
            else a)) := by
    rw [hs2]
    show sB.authors = _
    rw [ha]
    show (pullAuthorRef (pullCategoryRef s book) book).authors = _
    rw [pullAuthorRef_authors_eq, pullCategoryRef_authors]
  have hcats2 : s2.categories
      = (match s.categories.find? (fun c => c.title == book.category) with
        | none => s.categories
        | some cat => s.categories.map (fun c =>
            if c.id == cat.id then { c with books := c.books.filter (fun x => x ≠ book.id) }
            else c)) := by
    rw [hs2]
    show sB.categories = _
    rw [hc]
    show (pullAuthorRef (pullCategoryRef s book) book).categories = _
    rw [pullAuthorRef_categories, pullCategoryRef_categories_eq]
  refine ⟨?_, ?_, ?_, ?_⟩
  · intro a2 ha2 bid2 hbid2
    cases hfa : s.authors.find? (fun a => a.name == book.author) with
    | none =>
      rw [hfa] at hauthors2
      rw [hauthors2] at ha2
      obtain ⟨b', hb', hbid', hba'⟩ := hAS a2 ha2 bid2 hbid2
      refine ⟨b', (hbooks2 b').mpr ⟨hb', ?_⟩, hbid', hba'⟩
      intro hbb
      have hbk : b' = book := List.inj_on_of_nodup_map hbid hb' hbook_mem hbb
      have hname2 : a2.name = book.author := by rw [← hba', hbk]
      have hnone : ¬ a2.name = book.author := by
        simpa using List.find?_eq_none.mp hfa a2 ha2
      exact absurd hname2 hnone
    | some au =>
      rw [hfa] at hauthors2
      rw [hauthors2] at ha2
      simp only [List.mem_map] at ha2
      obtain ⟨a0, ha0, rfl⟩ := ha2
      by_cases hida : (a0.id == au.id) = true
      · rw [if_pos hida] at hbid2 ⊢
        rw [List.mem_filter] at hbid2
        obtain ⟨hold, hne⟩ := hbid2
        obtain ⟨b', hb', hbid', hba'⟩ := hAS a0 ha0 bid2 hold
        refine ⟨b', (hbooks2 b').mpr ⟨hb', ?_⟩, hbid', hba'⟩
        intro hbb
        rw [← hbid'] at hne
        simp [hbb] at hne
      · rw [if_neg hida] at hbid2 ⊢
        obtain ⟨b', hb', hbid', hba'⟩ := hAS a0 ha0 bid2 hbid2
        refine ⟨b', (hbooks2 b').mpr ⟨hb', ?_⟩, hbid', hba'⟩
        intro hbb
        have hbk : b' = book := List.inj_on_of_nodup_map hbid hb' hbook_mem hbb
        have hauname : au.name = book.author := by simpa using List.find?_some hfa
        have ha0name : a0.name = book.author := by rw [← hba', hbk]
        have : a0 = au :=
          List.inj_on_of_nodup_map hnameU ha0 (List.mem_of_find?_eq_some hfa)
            (ha0name.trans hauname.symm)
        rw [this] at hida
        simp at hida
  · intro b2 hb2 a2 ha2 hname
    have hb2' := (hbooks2 b2).mp hb2
    cases hfa : s.authors.find? (fun a => a.name == book.author) with
    | none =>
      rw [hfa] at hauthors2
      rw [hauthors2] at ha2
      exact hAC b2 hb2'.1 a2 ha2 hname
    | some au =>
      rw [hfa] at hauthors2
      rw [hauthors2] at ha2
      simp only [List.mem_map] at ha2
      obtain ⟨a0, ha0, rfl⟩ := ha2
      by_cases hida : (a0.id == au.id) = true
      · rw [if_pos hida] at hname ⊢
        rw [List.mem_filter]
        constructor
        · exact hAC b2 hb2'.1 a0 ha0 hname
        · simpa using hb2'.2
      · rw [if_neg hida] at hname ⊢
        exact hAC b2 hb2'.1 a0 ha0 hname
  · intro c2 hc2 bid2 hbid2
    cases hfc : s.categories.find? (fun c => c.title == book.category) with
    | none =>
      rw [hfc] at hcats2
      rw [hcats2] at hc2
      obtain ⟨b', hb', hbid', hbc'⟩ := hCS c2 hc2 bid2 hbid2
      refine ⟨b', (hbooks2 b').mpr ⟨hb', ?_⟩, hbid', hbc'⟩
      intro hbb
      have hbk : b' = book := List.inj_on_of_nodup_map hbid hb' hbook_mem hbb
      have htitle2 : c2.title = book.category := by rw [← hbc', hbk]
      have hnone : ¬ c2.title = book.category := by
        simpa using List.find?_eq_none.mp hfc c2 hc2
      exact absurd htitle2 hnone
    | some cat =>
      rw [hfc] at hcats2
      rw [hcats2] at hc2
      simp only [List.mem_map] at hc2
      obtain ⟨c0, hc0, rfl⟩ := hc2
      by_cases hidc : (c0.id == cat.id) = true
      · rw [if_pos hidc] at hbid2 ⊢
        rw [List.mem_filter] at hbid2
        obtain ⟨hold, hne⟩ := hbid2
        obtain ⟨b', hb', hbid', hbc'⟩ := hCS c0 hc0 bid2 hold
        refine ⟨b', (hbooks2 b').mpr ⟨hb', ?_⟩, hbid', hbc'⟩
        intro hbb
        rw [← hbid'] at hne
        simp [hbb] at hne
      · rw [if_neg hidc] at hbid2 ⊢
        obtain ⟨b', hb', hbid', hbc'⟩ := hCS c0 hc0 bid2 hbid2
        refine ⟨b', (hbooks2 b').mpr ⟨hb', ?_⟩, hbid', hbc'⟩
        intro hbb
        have hbk : b' = book := List.inj_on_of_nodup_map hbid hb' hbook_mem hbb
        have hcattitle : cat.title = book.category := by simpa using List.find?_some hfc
        have hc0title : c0.title = book.category := by rw [← hbc', hbk]
        have : c0 = cat :=
          List.inj_on_of_nodup_map htitleU hc0 (List.mem_of_find?_eq_some hfc)
            (hc0title.trans hcattitle.symm)
        rw [this] at hidc
        simp at hidc
  · intro b2 hb2 c2 hc2 htitle
    have hb2' := (hbooks2 b2).mp hb2
    cases hfc : s.categories.find? (fun c => c.title == book.category) with
    | none =>
      rw [hfc] at hcats2
      rw [hcats2] at hc2
      exact hCC b2 hb2'.1 c2 hc2 htitle
    | some cat =>
      rw [hfc] at hcats2
      rw [hcats2] at hc2
      simp only [List.mem_map] at hc2
      obtain ⟨c0, hc0, rfl⟩ := hc2
      by_cases hidc : (c0.id == cat.id) = true
      · rw [if_pos hidc] at htitle ⊢
        rw [List.mem_filter]
        constructor
        · exact hCC b2 hb2'.1 c0 hc0 htitle
        · simpa using hb2'.2
      · rw [if_neg hidc] at htitle ⊢
        exact hCC b2 hb2'.1 c0 hc0 htitle

/-- Claim C9 counterexample: on a consistent catalog, an `updateBookById`
that changes the book's author name resolves and stores the new name but
touches no back-reference list, so the bidirectional invariant is broken
afterwards (book 1 now names "bob" while only alice's list holds id 1). -/
theorem claim9_counterexample :
    RefInv state1 ∧
    (∃ b st, updateBookById state1 1 { body := { authorName := some "bob" } }
        = (Resp.ok 200 b, st) ∧ ¬ RefInv st) := by
  refine ⟨by decide, ?_⟩
  refine ⟨_, _, rfl, ?_⟩
  decide

/-- Claim C9 amended: `createBook` and `deleteBook` preserve the
bidirectional back-reference invariant (given unique join keys and
primary keys); the update paths do not — `updateBook` merges a changed
`authorName` or `category` without touching any reference list (see the
counterexample), and `updateAuthor` renames without re-keying Books. -/
theorem claim9_amended_create_delete_preserve :
    (∀ s r nb s2, authorNamesUnique s → categoryTitlesUnique s →
      authorIdsUnique s → categoryIdsUnique s → RefInv s →
      createBook s r = (.ok 201 nb, s2) → RefInv s2) ∧
    (∀ s id msg s2, booksIdUnique s → authorNamesUnique s → categoryTitlesUnique s →
      RefInv s → deleteBookById s id = (.ok 200 msg, s2) → RefInv s2) :=
  ⟨fun s r nb s2 h1 h2 h3 h4 h5 h6 =>
      createBook_preserves_refinv s r nb s2 h1 h2 h3 h4 h5 h6,
   fun s id msg s2 h1 h2 h3 h4 h5 =>
      deleteBook_preserves_refinv s id msg s2 h1 h2 h3 h4 h5⟩

theorem claim9_witness :
    (authorNamesUnique state1 ∧ categoryTitlesUnique state1 ∧ authorIdsUnique state1 ∧
      categoryIdsUnique state1 ∧ booksIdUnique state1 ∧ RefInv state1) ∧
    RefInv (createBook state1
      { title := "New", description := "nd", price := 10, category := "fiction"
        authorName := "alice", discountPercentage := some 20
        files := { file := some [⟨"wsrc"⟩], cover := some [⟨"wcov"⟩],
                   sample := some [⟨"wsmp"⟩] } }).2 ∧
    RefInv (deleteBookById state1 1).2 :=
  ⟨⟨by decide, by decide, by decide, by decide, by decide, by decide⟩,
    claim9_amended_create_delete_preserve.1 state1
      { title := "New", description := "nd", price := 10, category := "fiction"
        authorName := "alice", discountPercentage := some 20
        files := { file := some [⟨"wsrc"⟩], cover := some [⟨"wcov"⟩],
                   sample := some [⟨"wsmp"⟩] } } _ _
      (by decide) (by decide) (by decide) (by decide) (by decide) rfl,
    claim9_amended_create_delete_preserve.2 state1 1 "Book and related data deleted" _
      (by decide) (by decide) (by decide) (by decide) rfl⟩

end BookStore
